import Mathlib

/-!
Verification of the widget-synchronization core in `panel/param.py`.

The file embeds, as executable Lean definitions, the parts of the source
the claims are about: the widget type resolver (`Param.widget_type` and
`Param._mapping`), the widget builder (`Param.widget`), the ordering of
parameters (`Param._ordered_params`, `Param._get_widgets`), the rebuild of
the widget box (`Param._update_widgets`), the bidirectional link state
machine (`link_widget` / `link` with the `_updating` guard), the pane
update logic (`ParamMethod._update_pane`), and the expand-layout
validation in `Param.__init__`.  Machine values that only matter through
their Python identity are embedded as identity tokens; Python dicts
keyed by strings are embedded as insertion-ordered association lists.
Definitions come first, all theorems follow at the end of the file.
-/

namespace PanelParam

/-- Python object identity for parameter values: `none` models Python
  `None`, `some n` models an object whose identity is `n`.  Equality of
  this type models the `is` comparison. -/
abbrev Value := Option Nat

/-- Values stored in the keyword-argument dict assembled by `Param.widget`:
  parameter values, booleans, strings, numbers and option lists. -/
inductive KwVal where
  | v (x : Value)
  | b (x : Bool)
  | s (x : String)
  | q (x : Rat)
  | opts (xs : List Value)
deriving DecidableEq

/-- Association-list update modelling `d[k] = x` on a Python dict:
  insertion order preserved, an existing key overwritten in place
  (keys are unique in a Python dict, so replacing the first occurrence
  is exact). -/
def alSet {β : Type} : List (String × β) → String → β → List (String × β)
  | [], k, x => [(k, x)]
  | e :: tl, k, x => if e.1 == k then (k, x) :: tl else e :: alSet tl k x

/-- `k in d` on a Python dict. -/
def alHas {β : Type} (l : List (String × β)) (k : String) : Bool :=
  l.any (fun e => e.1 == k)

/-- `d.get(k)` on a Python dict. -/
def alGet {β : Type} (l : List (String × β)) (k : String) : Option β :=
  (l.find? (fun e => e.1 == k)).map (fun e => e.2)

/-- The widget classes imported by `panel/param.py` (lines 30-34). -/
inductive WidgetTy where
  | LiteralInput | Select | Checkbox | FloatSlider | IntSlider | RangeSlider
  | MultiSelect | StaticText | Button | Toggle | TextInput | DatetimeInput
  | DateRangeSlider | ColorPicker
deriving DecidableEq

/-- Names of the `param` parameter classes appearing in `Param._mapping`,
  together with ancestor classes needed to state inheritance chains
  (`Str` stands for `param.String`). -/
inductive PTypeName where
  | Action | Parameter | Color | Dict | Selector | ObjectSelector | FileSelector
  | Boolean | Number | Integer | Range | Str | ListSelector | Date | DateRange
  | Callable | SelectorBase | Dynamic
deriving DecidableEq

/-- A `param.Parameter` descriptor as consumed by `Param.widget`:
  `classlist` is `param.parameterized.classlist(type(p_obj))`, most general
  class first (`widget_type` walks its reverse); `getRange` is `some`
  exactly when the descriptor has a `get_range` method (its result);
  `softBounds` is `some` exactly when it has `get_soft_bounds` (its
  result); `step` is the `step` attribute (`none` when absent or `None`);
  `pathTruthy` is the truthiness of the `path` attribute consumed by the
  `FileSelector` factory. -/
structure PObj where
  name : String
  classlist : List PTypeName
  value : Value
  constant : Bool
  label : String
  precedence : Option Rat
  softBounds : Option (Option Rat × Option Rat) := none
  getRange : Option (List Value) := none
  step : Option Rat := none
  pathTruthy : Bool := false
deriving DecidableEq

/-- The `FileSelector` helper of lines 37-44: `Select` when the descriptor
  has a path, `TextInput` otherwise. -/
def FileSelectorFn (pobj : PObj) : WidgetTy :=
  if pobj.pathTruthy then .Select else .TextInput

/-- An entry of `Param._mapping`: a widget class, or a plain function
  called with the descriptor (the `types.FunctionType` test of line 483). -/
inductive MapEntry where
  | wclass (t : WidgetTy)
  | factory (f : PObj → WidgetTy)

/-- `Param._mapping` (lines 105-121); classes absent from the table give
  `none`. -/
def mapping : PTypeName → Option MapEntry
  | .Action => some (.wclass .Button)
  | .Parameter => some (.wclass .LiteralInput)
  | .Color => some (.wclass .ColorPicker)
  | .Dict => some (.wclass .LiteralInput)
  | .Selector => some (.wclass .Select)
  | .ObjectSelector => some (.wclass .Select)
  | .FileSelector => some (.factory FileSelectorFn)
  | .Boolean => some (.wclass .Checkbox)
  | .Number => some (.wclass .FloatSlider)
  | .Integer => some (.wclass .IntSlider)
  | .Range => some (.wclass .RangeSlider)
  | .Str => some (.wclass .TextInput)
  | .ListSelector => some (.wclass .MultiSelect)
  | .Date => some (.wclass .DatetimeInput)
  | .DateRange => some (.wclass .DateRangeSlider)
  | _ => none

/-- Returning a `_mapping` entry at lines 483-485: a factory is invoked
  with the descriptor, a class is returned as is. -/
def applyEntry (pobj : PObj) : MapEntry → WidgetTy
  | .wclass t => t
  | .factory f => f pobj

/-- The loop of `Param.widget_type` (lines 481-485): walk a list of
  classes, returning the entry of the first one present in `_mapping`. -/
def mappingWalk (pobj : PObj) : List PTypeName → Option WidgetTy
  | [] => none
  | t :: ts =>
    match mapping t with
    | some e => some (applyEntry pobj e)
    | none => mappingWalk pobj ts

/-- `Param.widget_type` (lines 478-485): `classlist(ptype)[::-1]` walks
  the descriptor's inheritance chain from most specific to least
  specific. -/
def widget_type (pobj : PObj) : Option WidgetTy :=
  mappingWalk pobj pobj.classlist.reverse

/-- A concrete `param.FileSelector` descriptor (chain as in the `param`
  library, most general first) with a configured path. -/
def fileSelDescr : PObj :=
  { name := "filename"
    classlist := [.Parameter, .SelectorBase, .ObjectSelector, .FileSelector]
    value := some 3
    constant := false
    label := "Filename"
    precedence := none
    getRange := some []
    pathTruthy := true }

/-! ### The bidirectional link state machine (lines 338-398)

`Param.widget` registers a widget-side watcher `link_widget` on the
control's `value` and an object-side watcher `link` on the parameter.
Both dispatch synchronously: assigning the control's value invokes
`link_widget`, whose `set_param` on the object invokes `link`, whose
`widget.set_param` invokes `link_widget` again — cut off by the
`self._updating` guard.  The mutual recursion is bounded by a fuel
parameter; the theorems show the guard stops the recursion after one
nested write, for every fuel that lets the first handler run at all. -/

/-- The state shared by one (Parameter, Control) pair: the guard flag
  `self._updating`, both current values, and counters of how many times
  each side's value has been assigned. -/
structure LinkSt where
  updating : Bool
  objVal : Value
  widVal : Value
  objWrites : Nat
  widWrites : Nat
deriving DecidableEq

mutual

/-- Assigning `v` to the control's `value` (counted in `widWrites`),
  which synchronously fires the `link_widget` watcher of lines 338-345:
  return if `self._updating`, else set the guard, `set_param` the value
  on the object, and release the guard (`finally`). -/
def ctrlWrite : Nat → LinkSt → Value → LinkSt
  | fuel, s, v =>
    let s1 : LinkSt := { s with widVal := v, widWrites := s.widWrites + 1 }
    if s1.updating then s1
    else
      match fuel with
      | 0 => s1
      | f + 1 =>
        let s2 : LinkSt := { s1 with updating := true }
        let s3 : LinkSt := paramWrite f s2 v
        { s3 with updating := false }

/-- `self.object.set_param(**{p_name: v})` (counted in `objWrites`),
  which synchronously fires the object-side `link` watcher; for a plain
  value event `link` (lines 354-398) reaches `elif self._updating:
  return` and otherwise sets `updates = {value: v}`, sets the guard,
  writes the control and releases the guard (`finally`). -/
def paramWrite : Nat → LinkSt → Value → LinkSt
  | fuel, s, v =>
    let s1 : LinkSt := { s with objVal := v, objWrites := s.objWrites + 1 }
    if s1.updating then s1
    else
      match fuel with
      | 0 => s1
      | f + 1 =>
        let s2 : LinkSt := { s1 with updating := true }
        let s3 : LinkSt := ctrlWrite f s2 v
        { s3 with updating := false }

end

/-! ### Failure behaviour of `link_widget` (lines 338-345, claim C6)

`link_widget` wraps `self.object.set_param(...)` in `try/finally` with no
`except` clause: a `ValueError` raised by a constraint violation releases
the guard but propagates out of the handler uncaught, and no warning is
emitted anywhere in `Param.widget` (contrast `JSONInit.__call__`, lines
733-737, which does catch `ValueError` and warn). -/

/-- State for a single `link_widget` invocation: the guard, the
  parameter value, a write counter, and whether a warning has been
  emitted (the source never emits one here, so no branch sets it). -/
structure WSt where
  updating : Bool
  objVal : Value
  objWrites : Nat
  warned : Bool
deriving DecidableEq

/-- Whether `object.set_param` succeeds or raises (a value violating a
  constraint raises `ValueError` inside the `param` library). -/
inductive SetOutcome where
  | ok
  | raisesValueError
deriving DecidableEq

/-- One run of `link_widget` (lines 338-345).  The returned `Bool` is
  true when an exception escapes the handler.  The `finally` block
  releases the guard on both exits; there is no `except` clause, so the
  failure is re-raised and nothing is warned. -/
def link_widget_step (s : WSt) (v : Value) (outcome : SetOutcome) : WSt × Bool :=
  if s.updating then (s, false)
  else
    let s1 : WSt := { s with updating := true }
    match outcome with
    | .ok =>
      ({ s1 with objVal := v, objWrites := s1.objWrites + 1, updating := false }, false)
    | .raisesValueError =>
      ({ s1 with updating := false }, true)

/-! ### The widget builder `Param.widget` (lines 285-332)

The widget classes themselves live in `panel.widgets`, outside the
sources under verification; the reflective probes the builder makes on
them (`hasattr(widget_class, 'step')`, `k in widget_class.param`,
`issubclass(...)`) are abstracted into a capability table over which the
theorems quantify. -/

/-- Capabilities of the external widget classes probed by `Param.widget`:
  `hasStep` models `hasattr(widget_class, 'step')`, `accepts` models
  `k in widget_class.param`, `isLiteralSub` models
  `issubclass(widget_class, LiteralInput)`, `isButtonBase` models
  `issubclass(widget_class, _ButtonBase)`. -/
structure WidgetCaps where
  hasStep : WidgetTy → Bool
  accepts : WidgetTy → String → Bool
  isLiteralSub : WidgetTy → Bool
  isButtonBase : WidgetTy → Bool

/-- A caller-supplied entry of the `widgets` override dict: either a
  widget class directly, or a dict of keyword overrides optionally
  holding a widget class under the key `type`. -/
inductive POverride where
  | wclass (t : WidgetTy)
  | odict (ty : Option WidgetTy) (extra : List (String × KwVal))
deriving DecidableEq

/-- A built control: its class and the keyword arguments it was
  constructed with (line 332). -/
structure Widget where
  wtype : WidgetTy
  kwargs : List (String × KwVal)
deriving DecidableEq

/-- `self.widgets`: `None` or a dict from parameter name to override. -/
abbrev WidgetsCfg := Option (List (String × POverride))

/-- Lines 290-299 of `Param.widget`: choose the widget class — from the
  resolver when there is no override for the parameter, from a dict
  override's `type` key (popped from the caller-owned dict as a side
  effect), or the override itself — and return the override keywords
  `kw_widget` together with the possibly mutated `widgets` dict.
  `widget_type` returning `none` is impossible when the descriptor's
  classlist contains `param.Parameter` (theorem `widget_type_resolves`
  below), so the `.getD .LiteralInput` default is never reached for such
  descriptors. -/
def resolve_widget_class (cfg : WidgetsCfg) (pobj : PObj) :
    WidgetTy × List (String × KwVal) × WidgetsCfg :=
  match cfg with
  | none => ((widget_type pobj).getD .LiteralInput, [], none)
  | some entries =>
    match alGet entries pobj.name with
    | none => ((widget_type pobj).getD .LiteralInput, [], some entries)
    | some (.wclass t) => (t, [], some entries)
    | some (.odict none extra) =>
      ((widget_type pobj).getD .LiteralInput, extra, some entries)
    | some (.odict (some t) extra) =>
      (t, extra, some (alSet entries pobj.name (.odict none extra)))

/-- Lines 300-309: the base keyword dict `kw` (`value`, `disabled`,
  `name`), with the label suppressed when `show_labels` is off and the
  class is not a button (line 302). -/
def base_kw (caps : WidgetCaps) (show_labels : Bool) (wc0 : WidgetTy)
    (pobj : PObj) : List (String × KwVal) :=
  let label := if !show_labels && !caps.isButtonBase wc0 then "" else pobj.label
  [("value", .v pobj.value), ("disabled", .b pobj.constant), ("name", .s label)]

/-- Lines 311-315: populate `options` from `get_range`, defaulting to a
  singleton of the current value when the range is empty and the value
  is not `None`. -/
def options_kw (pobj : PObj) (kw : List (String × KwVal)) : List (String × KwVal) :=
  match pobj.getRange with
  | none => kw
  | some opts =>
    let opts := if opts.isEmpty && !(pobj.value == none) then [pobj.value] else opts
    alSet kw "options" (.opts opts)

/-- Lines 316-325: populate `start`/`end` from the non-`None` soft
  bounds, downgrade the class to `LiteralInput` when `start` or `end` is
  still missing from `kw` and the class is not already a `LiteralInput`
  subclass, and forward a truthy `step` when the (final) class has a
  `step` attribute. -/
def bounds_kw (caps : WidgetCaps) (pobj : PObj) (wc0 : WidgetTy)
    (kw : List (String × KwVal)) : WidgetTy × List (String × KwVal) :=
  match pobj.softBounds with
  | none => (wc0, kw)
  | some (lo, hi) =>
    let kw1 := match lo with
      | some l => alSet kw "start" (.q l)
      | none => kw
    let kw2 := match hi with
      | some h => alSet kw1 "end" (.q h)
      | none => kw1
    let wc := if (!alHas kw2 "start" || !alHas kw2 "end") && !caps.isLiteralSub wc0 then
        WidgetTy.LiteralInput
      else wc0
    let kw3 := if caps.hasStep wc && !(pobj.step == none) && !(pobj.step == some 0) then
        alSet kw2 "step" (.q (pobj.step.getD 0))
      else kw2
    (wc, kw3)

/-- Lines 290-325 of `Param.widget` put together: the final widget class
  and keyword dict before the acceptance filter, plus the possibly
  mutated `widgets` dict. -/
def widget_kw (caps : WidgetCaps) (show_labels : Bool) (cfg : WidgetsCfg)
    (pobj : PObj) : WidgetTy × List (String × KwVal) × WidgetsCfg :=
  let r := resolve_widget_class cfg pobj
  let kw0 := base_kw caps show_labels r.1 pobj
  let kw1 := r.2.1.foldl (fun acc e => alSet acc e.1 e.2) kw0
  let kw2 := options_kw pobj kw1
  let p := bounds_kw caps pobj r.1 kw2
  (p.1, p.2, r.2.2)

/-- `Param.widget` (lines 285-332): build the control, keeping only the
  keywords the final class accepts (line 327), and return the possibly
  mutated `widgets` dict.  The watcher wiring of lines 334-410 is
  modelled by the link state machine above; the sub-object `Toggle`
  wrapping of lines 412-423 concerns parameterized values and is outside
  the verified claims. -/
def widgetFn (caps : WidgetCaps) (show_labels : Bool) (cfg : WidgetsCfg)
    (pobj : PObj) : Widget × WidgetsCfg :=
  let r := widget_kw caps show_labels cfg pobj
  ({ wtype := r.1, kwargs := r.2.1.filter fun e => caps.accepts r.1 e.1 }, r.2.2)

/-! ### Concrete fixtures used by witnesses and counterexamples -/

/-- A capability table with no step support: the acceptance filter keeps
  everything, only `LiteralInput` counts as a `LiteralInput` subclass and
  only `Button` as a `_ButtonBase` subclass. -/
def capsA : WidgetCaps :=
  { hasStep := fun _ => false
    accepts := fun _ _ => true
    isLiteralSub := fun t => t == .LiteralInput
    isButtonBase := fun t => t == .Button }

/-- Like `capsA` but every widget class has a `step` attribute. -/
def capsB : WidgetCaps :=
  { hasStep := fun _ => true
    accepts := fun _ _ => true
    isLiteralSub := fun t => t == .LiteralInput
    isButtonBase := fun t => t == .Button }

/-- A `param.Number` descriptor with soft bounds `(None, 5)` (chain as in
  the `param` library: `Number` derives from `Dynamic` which derives from
  `Parameter`). -/
def xNumDescr : PObj :=
  { name := "x", classlist := [.Parameter, .Dynamic, .Number], value := some 1,
    constant := false, label := "X", precedence := none,
    softBounds := some (none, some 5) }

/-- A bare `param.Parameter` descriptor named `x`. -/
def xPlainDescr : PObj :=
  { name := "x", classlist := [.Parameter], value := some 1,
    constant := false, label := "X", precedence := none }

/-- A `param.Number` descriptor with closed soft bounds and a step. -/
def yNumDescr : PObj :=
  { name := "y", classlist := [.Parameter, .Dynamic, .Number], value := some 2,
    constant := false, label := "Y", precedence := none,
    softBounds := some (some 1, some 10), step := some 2 }

/-- A `widgets` override dict carrying a `type` key for `x`. -/
def entriesTypeOverride : List (String × POverride) :=
  [("x", .odict (some .TextInput) [])]

/-- A `widgets` override dict supplying a `start` keyword for `x`. -/
def cfgStartOverride : WidgetsCfg :=
  some [("x", .odict none [("start", .q 0)])]

/-! ### Parameter ordering: `Param._ordered_params` (lines 427-440)

`sorted(params, key=key_fn)` is Python's stable sort by key; it is
embedded as a stable insertion sort (an element is inserted after all
existing elements whose key is not larger).  The subsequent
`itertools.groupby` over the sorted list and the flattening of the
groups (the `dict_ordered` branch, always taken on Python ≥ 3.6) are
embedded literally. -/

/-- `key_fn` of line 431: a parameter's own precedence, falling back to
  the configured `default_precedence`. -/
def param_key (dp : Rat) (x : PObj) : Rat := x.precedence.getD dp

/-- Stable insertion of `x` into `l`: before the first element whose key
  is strictly larger, hence after all equal keys. -/
def insOrd {α : Type} (key : α → Rat) (x : α) : List α → List α
  | [] => [x]
  | y :: ys => if key x < key y then x :: y :: ys else y :: insOrd key x ys

def sortStableGo {α : Type} (key : α → Rat) : List α → List α → List α
  | [], acc => acc
  | x :: xs, acc => sortStableGo key xs (insOrd key x acc)

/-- Python's `sorted(l, key=key)`: a stable sort by key. -/
def sortStable {α : Type} (key : α → Rat) (l : List α) : List α :=
  sortStableGo key l []

/-- `itertools.groupby(l, key)`: consecutive runs of equal keys. -/
def groupByKey {α : Type} (key : α → Rat) : List α → List (Rat × List α)
  | [] => []
  | x :: xs =>
    match groupByKey key xs with
    | [] => [(key x, [x])]
    | (k, g) :: rest =>
      if key x = k then (key x, x :: g) :: rest
      else (key x, [x]) :: (k, g) :: rest

/-- Lines 429-438 of `Param._ordered_params`: keep the whitelisted
  parameters (plus `name`), stable-sort by effective precedence, group by
  key and flatten the groups in order (the `dict_ordered` branch: Python
  ≥ 3.6 preserves definition order, so each group is kept as is). -/
def ordered_param_pairs (dp : Rat) (wl : List String) (obj : List PObj) : List PObj :=
  let params := obj.filter (fun x => wl.contains x.name || x.name == "name")
  let sortedPrec := sortStable (param_key dp) params
  let groups := groupByKey (param_key dp) sortedPrec
  (groups.map (fun g => g.2)).flatten

/-- Line 439: the ordered names, with `name` dropped. -/
def ordered_params (dp : Rat) (wl : List String) (obj : List PObj) : List String :=
  ((ordered_param_pairs dp wl obj).map (fun x => x.name)).filter (fun s => s != "name")

/-! ### `Param._get_widgets` (lines 446-457) and `Param._update_widgets`
(lines 187-220) -/

/-- The special `name` widget of line 453
  (`StaticText(value='<b>...</b>')`); `objName` stands for the result of
  the external `panel.util.param_name` formatting of `self.object.name`. -/
def name_widget (objName : String) : Widget :=
  { wtype := .StaticText, kwargs := [("value", .s ("<b>" ++ objName ++ "</b>"))] }

/-- The list comprehension of line 456: build one widget per ordered
  parameter name (looked up on the object as `self.object.param[p]`),
  threading the caller's `widgets` dict, which `Param.widget` may mutate
  (pop of `type`).  A name missing from the object is impossible for
  names produced by `ordered_params`. -/
def build_widgets (caps : WidgetCaps) (show_labels : Bool) (obj : List PObj) :
    WidgetsCfg → List String → List (String × Widget) × WidgetsCfg
  | cfg, [] => ([], cfg)
  | cfg, p :: ps =>
    match obj.find? (fun o => o.name == p) with
    | some pobj =>
      let r := widgetFn caps show_labels cfg pobj
      let rest := build_widgets caps show_labels obj r.2 ps
      ((p, r.1) :: rest.1, rest.2)
    | none => build_widgets caps show_labels obj cfg ps

/-- `Param._get_widgets` (lines 446-457): no `name` entry when the
  expand layout is `Tabs`, a `StaticText` name entry when `show_name`,
  then the ordered parameter widgets. -/
def get_widgets (caps : WidgetCaps)
    (show_labels show_name expandLayoutIsTabs : Bool) (dp : Rat)
    (wl : List String) (objName : String) (cfg : WidgetsCfg) (obj : List PObj) :
    List (String × Widget) × WidgetsCfg :=
  let nameWidgets : List (String × Widget) :=
    if expandLayoutIsTabs then []
    else if show_name then [("name", name_widget objName)]
    else []
  let r := build_widgets caps show_labels obj cfg (ordered_params dp wl obj)
  (nameWidgets ++ r.1, r.2)

/-- The state of a `Param` pane that `_update_widgets` reads and writes:
  the target object (its descriptors in declaration order), the display
  configuration, the `widgets` overrides, and the outputs `self._widgets`
  and `self._widget_box.objects`. -/
structure ParamState where
  object : Option (List PObj)
  objName : String
  parameters : List String
  display_threshold : Rat
  default_precedence : Rat
  show_labels : Bool
  show_name : Bool
  expandLayoutIsTabs : Bool
  widgetsCfg : WidgetsCfg
  widgetsBuilt : List (String × Widget)
  box : List Widget
deriving DecidableEq

/-- The visibility test of lines 216-217:
  `self.object.param[p].precedence is None or precedence >= threshold`. -/
def shown_prec (obj : List PObj) (threshold : Rat) (p : String) : Bool :=
  match (obj.find? (fun o => o.name == p)).bind (fun o => o.precedence) with
  | none => true
  | some q => threshold ≤ q

/-- The rebuild core of `Param._update_widgets` (lines 210-218): rebuild
  `self._widgets` (empty when there is no object) and assign to the
  widget box exactly the built widgets whose parameter is visible.  The
  event plumbing of lines 188-203 (parameter-list normalisation, which
  re-triggers this callback) and the callback unwatching of lines
  205-208 are bookkeeping around this core; `_link_subobjects` (line
  220) concerns nested parameterized values, outside the claims. -/
def update_widgets (caps : WidgetCaps) (st : ParamState) : ParamState :=
  match st.object with
  | none => { st with widgetsBuilt := [], box := [] }
  | some obj =>
    let r := get_widgets caps st.show_labels st.show_name st.expandLayoutIsTabs
      st.default_precedence st.parameters st.objName st.widgetsCfg obj
    let shownW := r.1.filter (fun pw => shown_prec obj st.display_threshold pw.1)
    { st with
      widgetsBuilt := r.1
      box := shownW.map (fun pw => pw.2)
      widgetsCfg := r.2 }

/-- An override entry that carries no `type` key. -/
def entryNoType : POverride → Bool
  | .wclass _ => true
  | .odict ty _ => ty.isNone

/-- No dict entry of the `widgets` configuration carries a `type` key,
  so no build pops anything from it. -/
def noTypeOverride : WidgetsCfg → Bool
  | none => true
  | some es => es.all (fun e => entryNoType e.2)

/-- A two-parameter object (the always-present `name` string parameter
  and a plain parameter `x`), in declaration order. -/
def idemObj : List PObj :=
  [{ name := "name", classlist := [.Parameter, .Str], value := some 0,
     constant := true, label := "Name", precedence := none },
   { name := "x", classlist := [.Parameter], value := some 1,
     constant := false, label := "X", precedence := none }]

/-- A pane state over `idemObj` whose `widgets` override for `x` carries
  a `type` key. -/
def idemState : ParamState :=
  { object := some idemObj, objName := "Demo", parameters := ["x"],
    display_threshold := 0, default_precedence := 0, show_labels := true,
    show_name := false, expandLayoutIsTabs := false,
    widgetsCfg := some [("x", .odict (some .TextInput) [])],
    widgetsBuilt := [], box := [] }

/-- A three-parameter object: the `name` string parameter, `x` with
  precedence 1 and `z` with precedence -1, in declaration order. -/
def c2Obj : List PObj :=
  [{ name := "name", classlist := [.Parameter, .Str], value := some 0,
     constant := true, label := "Name", precedence := none },
   { name := "x", classlist := [.Parameter], value := some 1,
     constant := false, label := "X", precedence := some 1 },
   { name := "z", classlist := [.Parameter], value := some 2,
     constant := false, label := "Z", precedence := some (-1) }]

/-- A pane state over `c2Obj` with threshold 0 and no overrides. -/
def c2State : ParamState :=
  { object := some c2Obj, objName := "Demo", parameters := ["x", "z"],
    display_threshold := 0, default_precedence := 0, show_labels := true,
    show_name := true, expandLayoutIsTabs := false, widgetsCfg := none,
    widgetsBuilt := [], box := [] }

/-! ### `ParamMethod._update_pane` (lines 545-565)

`get_pane_type` and `Link.registry` live outside the sources under
verification (`pane/base.py`, `links.py`); they are abstracted into the
function parameters `getPaneType` and `linksOf` (keyed by object
identity).  An unhashable output raises `TypeError` on the registry
lookup, caught at lines 548-551 and treated as no links. -/

/-- The freshly evaluated output: its identity, hashability, whether it
  is a `Reactive` instance, and its `get_param_values()` as identity
  tokens. -/
structure RObj where
  id : Nat
  hashable : Bool
  reactive : Bool
  paramValues : List (String × Value)
deriving DecidableEq

/-- The currently rendered pane: its concrete type (as a type token) and
  its `get_param_values()`. -/
structure PaneSt where
  ptype : Nat
  paramValues : List (String × Value)
deriving DecidableEq

/-- `self._pane.set_param(**new_params)` at line 557. -/
def applyWrites (pane : PaneSt) (ws : List (String × Value)) : PaneSt :=
  { pane with paramValues := ws.foldl (fun acc e => alSet acc e.1 e.2) pane.paramValues }

/-- `ParamMethod._update_pane` (lines 545-565), with the evaluation of
  `self._eval_function(self.object)` already performed (its result is
  `newObj`).  Returns the new pane, the list of parameter names written
  on the existing pane, and whether the pane was replaced by a freshly
  constructed one.  `v is not pvals[k]` filters by identity; a key
  absent from the pane (impossible for same-type panes) counts as
  differing.  The fresh wrapper built by the external `Pane` factory is
  represented by its type and its `object` parameter. -/
def update_pane (getPaneType : RObj → Nat) (linksOf : Nat → List Nat)
    (pane : PaneSt) (newObj : RObj) : PaneSt × List String × Bool :=
  let pt := getPaneType newObj
  let links := if newObj.hashable then linksOf newObj.id else []
  if pane.ptype = pt ∧ links = [] then
    if newObj.reactive then
      let newParams := newObj.paramValues.filter
        (fun kv => !(kv.1 == "name") && !(alGet pane.paramValues kv.1 == some kv.2))
      (applyWrites pane newParams, newParams.map (fun kv => kv.1), false)
    else
      ({ pane with paramValues := alSet pane.paramValues "object" (some newObj.id) },
        ["object"], false)
  else
    ({ ptype := pt, paramValues := [("object", some newObj.id)] }, [], true)

/-- A pane-type table assigning the same type to every output. -/
def gptFix : RObj → Nat := fun _ => 7

/-- An empty `Link` registry. -/
def lnkFix : Nat → List Nat := fun _ => []

/-- A rendered pane of type `7` whose `object` parameter is the object
  with identity `3`. -/
def paneFix : PaneSt := { ptype := 7, paramValues := [("object", some 3)] }

/-- A non-`Reactive` re-evaluation output that is identical (same
  identity `3`) to the pane's current object. -/
def objFix : RObj :=
  { id := 3, hashable := true, reactive := false, paramValues := [("object", some 3)] }

/-- A rendered pane with parameters `object` and `x`. -/
def paneFix2 : PaneSt :=
  { ptype := 7, paramValues := [("object", some 3), ("x", some 8)] }

/-- A `Reactive` output whose `object` agrees with the pane by identity
  but whose `x` differs. -/
def objReactive : RObj :=
  { id := 4, hashable := true, reactive := true,
    paramValues := [("object", some 3), ("x", some 9)] }

/-! ### Expand-layout validation in `Param.__init__` (lines 142-153)

The layout classes live in `panel.layout`, outside the sources under
verification.  Modelled from the spec: the Layout container abstraction
supplies `Column`, `Row` and `Tabs` as `Panel` subclasses; a small class
universe with Python's universal base `object` is enough to state the
branching. -/

/-- A minimal class universe: Python's `object`, the `Panel` layout base
  and its subclasses, and an unrelated non-layout class. -/
inductive Cls where
  | obj | panel | column | row | tabs | intCls
deriving DecidableEq

/-- Modelled from the spec: the method resolution order (self first,
  `object` last) of each class in the universe; `Column`, `Row` and
  `Tabs` derive from `Panel`. -/
def ancestors : Cls → List Cls
  | .obj => [.obj]
  | .panel => [.panel, .obj]
  | .column => [.column, .panel, .obj]
  | .row => [.row, .panel, .obj]
  | .tabs => [.tabs, .panel, .obj]
  | .intCls => [.intCls, .obj]

/-- `issubclass(a, b)` / `isinstance(x, b)` for an `x` of class `a`. -/
def isSub (a b : Cls) : Bool := (ancestors a).contains b

/-- A Python value assigned to `expand_layout`: an instance of class `c`,
  or the class `c` itself. -/
inductive LayoutVal where
  | inst (c : Cls)
  | ty (c : Cls)
deriving DecidableEq

/-- How construction fails: `isinstance(self._widget_box, layout)` with a
  non-type second argument raises `TypeError` (line 146); the explicit
  `ValueError` is raised at lines 151-153. -/
inductive InitErr where
  | typeError
  | valueError
deriving DecidableEq

/-- The expand-layout branching of `Param.__init__` (lines 142-153), with
  `widgetBoxCls` the class of `self._widget_box` (an instance of
  `self.default_layout`): a `Panel` instance is used directly; otherwise
  `isinstance(self._widget_box, layout)` requires `layout` to be a type
  (else `TypeError`) and accepts any type the widget box is an instance
  of; otherwise a `Panel` subclass type is instantiated; anything else
  raises `ValueError`. -/
def initExpandLayout (widgetBoxCls : Cls) (layout : LayoutVal) : Except InitErr Unit :=
  match layout with
  | .inst c => if isSub c .panel then .ok () else .error .typeError
  | .ty c =>
    if isSub widgetBoxCls c then .ok ()
    else if isSub c .panel then .ok ()
    else .error .valueError

/-- Whether construction succeeded. -/
def initOk (r : Except InitErr Unit) : Bool :=
  match r with
  | .ok _ => true
  | .error _ => false

/-- The claim's validity predicate, written from the spec's words: the
  configured `expand_layout` is a `Panel` container instance or a type
  that is a `Panel` subclass. -/
def validExpandLayout : LayoutVal → Bool
  | .inst c => isSub c .panel
  | .ty c => isSub c .panel

end PanelParam

namespace PanelParam

/-! ## Theorems -/

theorem alGet_alSet_self {β : Type} (l : List (String × β)) (k : String) (x : β) :
    alGet (alSet l k x) k = some x := by
  induction l with
  | nil => simp [alSet, alGet]
  | cons e tl ih =>
    simp only [alSet]
    by_cases h : e.1 = k
    · simp [h, alGet, List.find?_cons]
    · have hb : (e.1 == k) = false := by simpa using h
      simpa [alGet, List.find?_cons, hb] using ih

theorem alGet_alSet_ne {β : Type} (l : List (String × β)) (k k' : String) (x : β)
    (h : k' ≠ k) :
    alGet (alSet l k x) k' = alGet l k' := by
  have hkk : (k == k') = false := by simpa using fun hh => h (hh.symm)
  induction l with
  | nil => simp [alSet, alGet, List.find?_cons, hkk]
  | cons e tl ih =>
    simp only [alSet]
    by_cases he : e.1 = k
    · have hb : (e.1 == k) = true := by simpa using he
      have he' : (e.1 == k') = false := by
        subst he
        exact hkk
      simp [hb, alGet, List.find?_cons, hkk, he']
    · have hb : (e.1 == k) = false := by simpa using he
      by_cases hq : e.1 = k'
      · have hb' : (e.1 == k') = true := by simpa using hq
        simp [hb, alGet, List.find?_cons, hb']
      · have hb' : (e.1 == k') = false := by simpa using hq
        simpa [alGet, List.find?_cons, hb, hb'] using ih

theorem alHas_alSet_self {β : Type} (l : List (String × β)) (k : String) (x : β) :
    alHas (alSet l k x) k = true := by
  induction l with
  | nil => simp [alSet, alHas]
  | cons e tl ih =>
    simp only [alSet]
    by_cases h : e.1 = k
    · simp [h, alHas]
    · have hb : (e.1 == k) = false := by simpa using h
      simpa [alHas, hb] using ih

theorem alHas_alSet_ne {β : Type} (l : List (String × β)) (k k' : String) (x : β)
    (h : k' ≠ k) :
    alHas (alSet l k x) k' = alHas l k' := by
  have hkk : (k == k') = false := by simpa using fun hh => h (hh.symm)
  induction l with
  | nil => simp [alSet, alHas, hkk]
  | cons e tl ih =>
    simp only [alSet]
    by_cases he : e.1 = k
    · have hb : (e.1 == k) = true := by simpa using he
      have he' : (e.1 == k') = false := by
        subst he
        exact hkk
      simp [hb, alHas, hkk, he']
    · have hb : (e.1 == k) = false := by simpa using he
      have ih' := ih
      simp only [alHas] at ih'
      simp only [hb, Bool.false_eq_true, if_false, alHas, List.any_cons, ih']

theorem alHas_foldl_alSet {β : Type} (ws : List (String × β)) (l : List (String × β))
    (k : String) :
    alHas (ws.foldl (fun acc e => alSet acc e.1 e.2) l) k
      = (alHas l k || ws.any (fun e => e.1 == k)) := by
  induction ws generalizing l with
  | nil => simp
  | cons e ws ih =>
    simp only [List.foldl_cons, List.any_cons]
    rw [ih]
    by_cases h : e.1 = k
    · subst h
      rw [alHas_alSet_self]
      simp
    · rw [alHas_alSet_ne _ _ _ _ (fun hh => h hh.symm)]
      have hb : (e.1 == k) = false := by simpa using h
      rw [hb]
      simp [Bool.or_assoc]

theorem alHas_base_kw_start (caps : WidgetCaps) (sl : Bool) (wc0 : WidgetTy)
    (pobj : PObj) : alHas (base_kw caps sl wc0 pobj) "start" = false := rfl

theorem alHas_base_kw_end (caps : WidgetCaps) (sl : Bool) (wc0 : WidgetTy)
    (pobj : PObj) : alHas (base_kw caps sl wc0 pobj) "end" = false := rfl

theorem alHas_options_kw (pobj : PObj) (kw : List (String × KwVal)) (k : String)
    (hk : k ≠ "options") :
    alHas (options_kw pobj kw) k = alHas kw k := by
  cases hr : pobj.getRange <;> simp [options_kw, hr, alHas_alSet_ne _ _ _ _ hk]

theorem alGet_options_kw (pobj : PObj) (kw : List (String × KwVal)) (k : String)
    (hk : k ≠ "options") :
    alGet (options_kw pobj kw) k = alGet kw k := by
  cases hr : pobj.getRange <;> simp [options_kw, hr, alGet_alSet_ne _ _ _ _ hk]

theorem widget_kw_cfg (caps : WidgetCaps) (sl : Bool) (cfg : WidgetsCfg)
    (pobj : PObj) :
    (widget_kw caps sl cfg pobj).2.2 = (resolve_widget_class cfg pobj).2.2 := rfl

theorem widgetFn_cfg (caps : WidgetCaps) (sl : Bool) (cfg : WidgetsCfg)
    (pobj : PObj) :
    (widgetFn caps sl cfg pobj).2 = (resolve_widget_class cfg pobj).2.2 := rfl

/-- C10: when the caller-supplied `widgets` override for a parameter is a
  dict containing a `type` key, `Param.widget` pops the `type` key from
  that caller-owned dict: afterwards the stored override is the same dict
  without `type` (all other entries unchanged), and a subsequent build of
  the same parameter no longer sees the type override — the resolver
  `widget_type` decides the class and the remaining entries still apply
  as keyword overrides. -/
theorem widget_pops_type (caps : WidgetCaps) (show_labels : Bool)
    (entries : List (String × POverride)) (t : WidgetTy)
    (extra : List (String × KwVal)) (pobj : PObj)
    (hl : alGet entries pobj.name = some (.odict (some t) extra)) :
    (widgetFn caps show_labels (some entries) pobj).2
      = some (alSet entries pobj.name (.odict none extra)) ∧
    alGet (alSet entries pobj.name (.odict none extra)) pobj.name
      = some (.odict none extra) ∧
    (resolve_widget_class (some (alSet entries pobj.name (.odict none extra))) pobj).1
      = (widget_type pobj).getD .LiteralInput ∧
    (resolve_widget_class (some (alSet entries pobj.name (.odict none extra))) pobj).2.1
      = extra := by
  refine ⟨?_, alGet_alSet_self _ _ _, ?_, ?_⟩
  · rw [widgetFn_cfg]
    simp [resolve_widget_class, hl]
  · simp [resolve_widget_class, alGet_alSet_self]
  · simp [resolve_widget_class, alGet_alSet_self]

/-- Witness for C10 on a concrete override dict for the parameter `x`. -/
theorem widget_pops_type_witness :
    (widgetFn capsA true (some entriesTypeOverride) xPlainDescr).2
      = some (alSet entriesTypeOverride "x" (.odict none [])) ∧
    alGet (alSet entriesTypeOverride "x" (.odict none [])) "x"
      = some (.odict none []) ∧
    (resolve_widget_class (some (alSet entriesTypeOverride "x" (.odict none []))) xPlainDescr).1
      = (widget_type xPlainDescr).getD .LiteralInput ∧
    (resolve_widget_class (some (alSet entriesTypeOverride "x" (.odict none []))) xPlainDescr).2.1
      = [] :=
  widget_pops_type capsA true entriesTypeOverride .TextInput [] xPlainDescr rfl

/-- Counterexample to C7: `xNumDescr` has soft bounds `(None, 5)` — one
  bound is `None` — and its resolved class `FloatSlider` is not a
  `LiteralInput` subclass, yet the built class stays `FloatSlider`
  because the caller's override dict supplies a `start` keyword, so
  `'start' not in kw or 'end' not in kw` at line 322 is false. -/
theorem widget_bounds_counterexample :
    xNumDescr.softBounds = some (none, some 5) ∧
    (resolve_widget_class cfgStartOverride xNumDescr).1 = .FloatSlider ∧
    capsA.isLiteralSub .FloatSlider = false ∧
    (widget_kw capsA true cfgStartOverride xNumDescr).1 = .FloatSlider ∧
    (widgetFn capsA true cfgStartOverride xNumDescr).1.wtype = .FloatSlider :=
  ⟨rfl, rfl, rfl, rfl, rfl⟩

theorem step_stage_get (caps : WidgetCaps) (pobj : PObj) (wc : WidgetTy)
    (kw2 : List (String × KwVal)) (k : String) (hk : k ≠ "step") :
    alGet (if caps.hasStep wc && !(pobj.step == none) && !(pobj.step == some 0) then
        alSet kw2 "step" (.q (pobj.step.getD 0))
      else kw2) k = alGet kw2 k := by
  split
  · rw [alGet_alSet_ne _ _ _ _ hk]
  · rfl

theorem step_stage_set (caps : WidgetCaps) (pobj : PObj) (wc : WidgetTy)
    (kw2 : List (String × KwVal)) (st : Rat) (hst : pobj.step = some st)
    (h0 : st ≠ 0) (hcap : caps.hasStep wc = true) :
    alGet (if caps.hasStep wc && !(pobj.step == none) && !(pobj.step == some 0) then
        alSet kw2 "step" (.q (pobj.step.getD 0))
      else kw2) "step" = some (.q st) := by
  have h1 : (pobj.step == none) = false := by simp [hst]
  have h2 : (pobj.step == some 0) = false := by simp [hst, h0]
  simp only [hcap, h1, h2, Bool.not_false, Bool.and_true, Bool.true_and, if_true]
  rw [hst]
  exact alGet_alSet_self _ _ _

/-- Behaviour of the soft-bounds block (lines 316-325) on an arbitrary
  accumulated keyword dict `kw`. -/
theorem bounds_kw_spec (caps : WidgetCaps) (pobj : PObj) (wc0 : WidgetTy)
    (kw : List (String × KwVal)) (lo hi : Option Rat)
    (hb : pobj.softBounds = some (lo, hi)) :
    (∀ l, lo = some l → alGet (bounds_kw caps pobj wc0 kw).2 "start" = some (.q l)) ∧
    (∀ h, hi = some h → alGet (bounds_kw caps pobj wc0 kw).2 "end" = some (.q h)) ∧
    ((bounds_kw caps pobj wc0 kw).1
      = if (!(lo.isSome || alHas kw "start") || !(hi.isSome || alHas kw "end"))
           && !caps.isLiteralSub wc0 then
          WidgetTy.LiteralInput
        else wc0) ∧
    (∀ st : Rat, pobj.step = some st → st ≠ 0 →
      caps.hasStep (bounds_kw caps pobj wc0 kw).1 = true →
      alGet (bounds_kw caps pobj wc0 kw).2 "step" = some (.q st)) := by
  have hps : ("start" : String) ≠ "step" := by decide
  have hpe : ("end" : String) ≠ "step" := by decide
  have hse : ("start" : String) ≠ "end" := by decide
  refine ⟨?_, ?_, ?_, ?_⟩
  · rintro l rfl
    rcases hi with _ | h <;> simp only [bounds_kw, hb] <;>
      rw [step_stage_get caps pobj _ _ "start" hps]
    · exact alGet_alSet_self _ _ _
    · rw [alGet_alSet_ne _ "end" "start" (KwVal.q h) hse]
      exact alGet_alSet_self _ _ _
  · rintro h rfl
    rcases lo with _ | l <;> simp only [bounds_kw, hb] <;>
      rw [step_stage_get caps pobj _ _ "end" hpe] <;>
      exact alGet_alSet_self _ _ _
  · rcases lo with _ | l <;> rcases hi with _ | h
    · simp [bounds_kw, hb]
    · have e1 : alHas (alSet kw "end" (KwVal.q h)) "start" = alHas kw "start" :=
        alHas_alSet_ne kw "end" "start" (KwVal.q h) hse
      have e2 : alHas (alSet kw "end" (KwVal.q h)) "end" = true :=
        alHas_alSet_self kw "end" (KwVal.q h)
      simp [bounds_kw, hb, e1, e2]
    · have e1 : alHas (alSet kw "start" (KwVal.q l)) "start" = true :=
        alHas_alSet_self kw "start" (KwVal.q l)
      have e2 : alHas (alSet kw "start" (KwVal.q l)) "end" = alHas kw "end" :=
        alHas_alSet_ne kw "start" "end" (KwVal.q l) hse.symm
      simp [bounds_kw, hb, e1, e2]
    · have e1 : alHas (alSet (alSet kw "start" (KwVal.q l)) "end" (KwVal.q h)) "end" = true :=
        alHas_alSet_self _ "end" (KwVal.q h)
      have e2 : alHas (alSet (alSet kw "start" (KwVal.q l)) "end" (KwVal.q h)) "start" = true := by
        rw [alHas_alSet_ne _ "end" "start" (KwVal.q h) hse]
        exact alHas_alSet_self _ _ _
      simp [bounds_kw, hb, e1, e2]
  · rintro st hst h0 hcap
    rcases lo with _ | l <;> rcases hi with _ | h <;>
      simp only [bounds_kw, hb] at hcap ⊢ <;>
      exact step_stage_set caps pobj _ _ st hst h0 hcap

/-- C7 amended: for a descriptor exposing soft bounds, `Param.widget`
  writes `start`/`end` into the keyword dict from the non-`None` bounds
  (overwriting any caller-supplied values); the widget class is replaced
  by `LiteralInput` exactly when `start` or `end` is still missing from
  the accumulated keywords — that bound is `None` and no caller override
  supplies the key — and the resolved class is not already a
  `LiteralInput` subclass; a truthy `step` is forwarded when the final
  widget class has a `step` attribute. -/
theorem widget_soft_bounds (caps : WidgetCaps) (show_labels : Bool)
    (cfg : WidgetsCfg) (pobj : PObj) (lo hi : Option Rat)
    (hb : pobj.softBounds = some (lo, hi)) :
    (∀ l, lo = some l →
      alGet (widget_kw caps show_labels cfg pobj).2.1 "start" = some (.q l)) ∧
    (∀ h, hi = some h →
      alGet (widget_kw caps show_labels cfg pobj).2.1 "end" = some (.q h)) ∧
    ((widget_kw caps show_labels cfg pobj).1
      = if (!(lo.isSome || alHas (resolve_widget_class cfg pobj).2.1 "start")
            || !(hi.isSome || alHas (resolve_widget_class cfg pobj).2.1 "end"))
           && !caps.isLiteralSub (resolve_widget_class cfg pobj).1 then
          WidgetTy.LiteralInput
        else (resolve_widget_class cfg pobj).1) ∧
    (∀ st : Rat, pobj.step = some st → st ≠ 0 →
      caps.hasStep (widget_kw caps show_labels cfg pobj).1 = true →
      alGet (widget_kw caps show_labels cfg pobj).2.1 "step" = some (.q st)) := by
  have hso : ("start" : String) ≠ "options" := by decide
  have heo : ("end" : String) ≠ "options" := by decide
  set r := resolve_widget_class cfg pobj with hr
  set kw0 := base_kw caps show_labels r.1 pobj with hkw0
  set kw1 := r.2.1.foldl (fun acc e => alSet acc e.1 e.2) kw0 with hkw1
  set kw2 := options_kw pobj kw1 with hkw2
  have hstart2 : alHas kw2 "start" = alHas r.2.1 "start" := by
    rw [hkw2, alHas_options_kw _ _ _ hso, hkw1, alHas_foldl_alSet, hkw0,
      alHas_base_kw_start]
    simp [alHas]
  have hend2 : alHas kw2 "end" = alHas r.2.1 "end" := by
    rw [hkw2, alHas_options_kw _ _ _ heo, hkw1, alHas_foldl_alSet, hkw0,
      alHas_base_kw_end]
    simp [alHas]
  have hmain : widget_kw caps show_labels cfg pobj
      = ((bounds_kw caps pobj r.1 kw2).1, (bounds_kw caps pobj r.1 kw2).2, r.2.2) := rfl
  obtain ⟨ha, hbnd, hc, hd⟩ := bounds_kw_spec caps pobj r.1 kw2 lo hi hb
  rw [hmain]
  refine ⟨ha, hbnd, ?_, hd⟩
  rw [hc, hstart2, hend2]

/-- Witness for the amended C7 on a concrete bounded descriptor with a
  step: both bounds and the step land in the keyword dict. -/
theorem widget_soft_bounds_witness :
    alGet (widget_kw capsB true none yNumDescr).2.1 "start" = some (.q 1) ∧
    alGet (widget_kw capsB true none yNumDescr).2.1 "end" = some (.q 10) ∧
    alGet (widget_kw capsB true none yNumDescr).2.1 "step" = some (.q 2) :=
  ⟨(widget_soft_bounds capsB true none yNumDescr (some 1) (some 10) rfl).1 1 rfl,
   (widget_soft_bounds capsB true none yNumDescr (some 1) (some 10) rfl).2.1 10 rfl,
   (widget_soft_bounds capsB true none yNumDescr (some 1) (some 10) rfl).2.2.2 2 rfl
     (by norm_num) rfl⟩

theorem insOrd_perm {α : Type} (key : α → Rat) (x : α) (l : List α) :
    (insOrd key x l).Perm (x :: l) := by
  induction l with
  | nil => simp [insOrd]
  | cons y ys ih =>
    simp only [insOrd]
    split
    · exact List.Perm.refl _
    · exact (List.Perm.cons y ih).trans (List.Perm.swap x y ys)

theorem insOrd_pairwise {α : Type} (key : α → Rat) (x : α) (l : List α)
    (h : l.Pairwise (fun a b => key a ≤ key b)) :
    (insOrd key x l).Pairwise (fun a b => key a ≤ key b) := by
  induction l with
  | nil => simp [insOrd]
  | cons y ys ih =>
    obtain ⟨hy, hys⟩ := List.pairwise_cons.mp h
    simp only [insOrd]
    split
    · rename_i hlt
      refine List.pairwise_cons.mpr ⟨?_, h⟩
      intro z hz
      rcases List.mem_cons.mp hz with rfl | hz
      · exact le_of_lt hlt
      · exact le_of_lt (lt_of_lt_of_le hlt (hy z hz))
    · rename_i hnlt
      refine List.pairwise_cons.mpr ⟨?_, ih hys⟩
      intro z hz
      have hz' := (insOrd_perm key x ys).mem_iff.mp hz
      rcases List.mem_cons.mp hz' with rfl | hz'
      · exact not_lt.mp hnlt
      · exact hy z hz'

theorem insOrd_filter {α : Type} (key : α → Rat) (x : α) (l : List α) (k : Rat)
    (h : l.Pairwise (fun a b => key a ≤ key b)) :
    (insOrd key x l).filter (fun a => key a == k)
      = if key x = k then l.filter (fun a => key a == k) ++ [x]
        else l.filter (fun a => key a == k) := by
  induction l with
  | nil =>
    by_cases hx : key x = k <;> simp [insOrd, hx]
  | cons y ys ih =>
    obtain ⟨hy, hys⟩ := List.pairwise_cons.mp h
    simp only [insOrd]
    split
    · rename_i hlt
      by_cases hx : key x = k
      · have hemp : (y :: ys).filter (fun a => key a == k) = [] := by
          rw [List.filter_eq_nil_iff]
          intro z hz
          have hzk : key x < key z := by
            rcases List.mem_cons.mp hz with rfl | hz'
            · exact hlt
            · exact lt_of_lt_of_le hlt (hy z hz')
          simp only [beq_iff_eq]
          intro hzk2
          rw [← hx] at hzk2
          exact absurd hzk2 (ne_of_gt hzk)
        rw [List.filter_cons]
        simp only [hx, if_pos, beq_self_eq_true]
        rw [hemp]
        simp [hx]
      · have hxb : (key x == k) = false := by simpa using hx
        rw [List.filter_cons]
        simp [hxb, hx]
    · rename_i hnlt
      rw [List.filter_cons, ih hys, List.filter_cons]
      by_cases hx : key x = k <;> by_cases hyk : key y = k <;>
        simp [hx, hyk]

theorem sortStableGo_pairwise {α : Type} (key : α → Rat) (l acc : List α)
    (h : acc.Pairwise (fun a b => key a ≤ key b)) :
    (sortStableGo key l acc).Pairwise (fun a b => key a ≤ key b) := by
  induction l generalizing acc with
  | nil => exact h
  | cons x xs ih => exact ih _ (insOrd_pairwise key x acc h)

theorem sortStableGo_perm {α : Type} (key : α → Rat) (l acc : List α) :
    (sortStableGo key l acc).Perm (acc ++ l) := by
  induction l generalizing acc with
  | nil => simp [sortStableGo]
  | cons x xs ih =>
    rw [sortStableGo]
    refine (ih (insOrd key x acc)).trans ?_
    refine ((insOrd_perm key x acc).append_right xs).trans ?_
    exact List.perm_middle.symm

theorem sortStableGo_filter {α : Type} (key : α → Rat) (l acc : List α) (k : Rat)
    (h : acc.Pairwise (fun a b => key a ≤ key b)) :
    (sortStableGo key l acc).filter (fun a => key a == k)
      = acc.filter (fun a => key a == k) ++ l.filter (fun a => key a == k) := by
  induction l generalizing acc with
  | nil => simp [sortStableGo]
  | cons x xs ih =>
    rw [sortStableGo, ih _ (insOrd_pairwise key x acc h), insOrd_filter key x acc k h,
      List.filter_cons]
    by_cases hx : key x = k
    · simp [hx]
    · have hxb : (key x == k) = false := by simpa using hx
      simp [hxb, hx]

theorem sortStable_pairwise {α : Type} (key : α → Rat) (l : List α) :
    (sortStable key l).Pairwise (fun a b => key a ≤ key b) :=
  sortStableGo_pairwise key l [] (List.Pairwise.nil)

theorem sortStable_perm {α : Type} (key : α → Rat) (l : List α) :
    (sortStable key l).Perm l := by
  simpa using sortStableGo_perm key l []

theorem sortStable_filter {α : Type} (key : α → Rat) (l : List α) (k : Rat) :
    (sortStable key l).filter (fun a => key a == k)
      = l.filter (fun a => key a == k) := by
  simpa using sortStableGo_filter key l [] k (List.Pairwise.nil)

theorem flatten_groupByKey {α : Type} (key : α → Rat) (l : List α) :
    (((groupByKey key l).map (fun g => g.2)).flatten) = l := by
  induction l with
  | nil => rfl
  | cons x xs ih =>
    rw [groupByKey]
    cases hg : groupByKey key xs with
    | nil =>
      rw [hg] at ih
      simp only [List.map_nil, List.flatten_nil] at ih
      subst ih
      simp
    | cons g rest =>
      obtain ⟨k, grp⟩ := g
      rw [hg] at ih
      simp only [List.map_cons, List.flatten_cons] at ih
      by_cases hk : key x = k
      · simp [hk, ih]
      · simp [hk, ih]

theorem ordered_param_pairs_eq_sort (dp : Rat) (wl : List String) (obj : List PObj) :
    ordered_param_pairs dp wl obj
      = sortStable (param_key dp)
          (obj.filter (fun x => wl.contains x.name || x.name == "name")) := by
  unfold ordered_param_pairs
  rw [flatten_groupByKey]

theorem ordered_param_pairs_perm (dp : Rat) (wl : List String) (obj : List PObj) :
    (ordered_param_pairs dp wl obj).Perm
      (obj.filter (fun x => wl.contains x.name || x.name == "name")) := by
  rw [ordered_param_pairs_eq_sort]
  exact sortStable_perm _ _

theorem ordered_params_mem (dp : Rat) (wl : List String) (obj : List PObj)
    (p : String) (hp : p ∈ ordered_params dp wl obj) :
    ∃ x, x ∈ obj ∧ x.name = p := by
  unfold ordered_params at hp
  obtain ⟨hmem, hpred⟩ := List.mem_filter.mp hp
  obtain ⟨x, hx, rfl⟩ := List.mem_map.mp hmem
  have hx2 := (ordered_param_pairs_perm dp wl obj).mem_iff.mp hx
  exact ⟨x, List.mem_of_mem_filter hx2, rfl⟩

theorem ordered_params_found (dp : Rat) (wl : List String) (obj : List PObj)
    (p : String) (hp : p ∈ ordered_params dp wl obj) :
    (obj.find? (fun o => o.name == p)).isSome = true := by
  obtain ⟨x, hx, rfl⟩ := ordered_params_mem dp wl obj p hp
  exact List.find?_isSome.mpr ⟨x, hx, by simp⟩

theorem build_widgets_fst (caps : WidgetCaps) (sl : Bool) (obj : List PObj)
    (ps : List String) (cfg : WidgetsCfg) :
    (build_widgets caps sl obj cfg ps).1.map (fun pw => pw.1)
      = ps.filter (fun p => (obj.find? (fun o => o.name == p)).isSome) := by
  induction ps generalizing cfg with
  | nil => rfl
  | cons p ps ih =>
    rw [build_widgets, List.filter_cons]
    cases hf : obj.find? (fun o => o.name == p) with
    | some pobj => simp [hf, ih]
    | none => simp [hf, ih]

theorem get_widgets_fst (caps : WidgetCaps) (sl sn tabs : Bool) (dp : Rat)
    (wl : List String) (objName : String) (cfg : WidgetsCfg) (obj : List PObj) :
    (get_widgets caps sl sn tabs dp wl objName cfg obj).1.map (fun pw => pw.1)
      = (if tabs then [] else if sn then ["name"] else [])
          ++ ordered_params dp wl obj := by
  unfold get_widgets
  rw [List.map_append, build_widgets_fst]
  congr 1
  · cases tabs <;> cases sn <;> simp
  · rw [List.filter_eq_self]
    intro p hp
    exact ordered_params_found dp wl obj p hp

/-- C3: `Param._ordered_params` lists the whitelisted parameters (plus
  the always-included `name`, which is then dropped) sorted ascending by
  effective precedence (`default_precedence` substituted for `None`),
  with equal-precedence parameters kept in declaration order (the stable
  sort followed by groupby-and-flatten); the order is a function of the
  object, whitelist and default precedence only — in particular
  identical across rebuilds, which mutate only the `widgets` override
  dict — and the synthesized `name` label, when shown, comes first. -/
theorem ordered_params_spec (dp : Rat) (wl : List String) (obj : List PObj) :
    (ordered_param_pairs dp wl obj).Pairwise
      (fun a b => param_key dp a ≤ param_key dp b) ∧
    (∀ k : Rat, (ordered_param_pairs dp wl obj).filter (fun x => param_key dp x == k)
        = (obj.filter (fun x => wl.contains x.name || x.name == "name")).filter
            (fun x => param_key dp x == k)) ∧
    (ordered_param_pairs dp wl obj).Perm
      (obj.filter (fun x => wl.contains x.name || x.name == "name")) ∧
    ordered_params dp wl obj
      = ((ordered_param_pairs dp wl obj).map (fun x => x.name)).filter
          (fun s => s != "name") ∧
    (∀ (caps : WidgetCaps) (sl : Bool) (objName : String) (cfg : WidgetsCfg),
      (get_widgets caps sl true false dp wl objName cfg obj).1.map (fun pw => pw.1)
        = "name" :: ordered_params dp wl obj) ∧
    (∀ (caps : WidgetCaps) (sl sn tabs : Bool) (objName : String)
        (cfg1 cfg2 : WidgetsCfg),
      (get_widgets caps sl sn tabs dp wl objName cfg1 obj).1.map (fun pw => pw.1)
        = (get_widgets caps sl sn tabs dp wl objName cfg2 obj).1.map (fun pw => pw.1)) := by
  refine ⟨?_, ?_, ordered_param_pairs_perm dp wl obj, rfl, ?_, ?_⟩
  · rw [ordered_param_pairs_eq_sort]
    exact sortStable_pairwise _ _
  · intro k
    rw [ordered_param_pairs_eq_sort]
    exact sortStable_filter _ _ k
  · intro caps sl objName cfg
    rw [get_widgets_fst]
    rfl
  · intro caps sl sn tabs objName cfg1 cfg2
    rw [get_widgets_fst, get_widgets_fst]

theorem name_not_mem_ordered (dp : Rat) (wl : List String) (obj : List PObj) :
    "name" ∉ ordered_params dp wl obj := by
  intro h
  have := (List.mem_filter.mp h).2
  simp at this

theorem ordered_params_nodup (dp : Rat) (wl : List String) (obj : List PObj)
    (hnd : (obj.map (fun o => o.name)).Nodup) :
    (ordered_params dp wl obj).Nodup := by
  have hperm : ((ordered_param_pairs dp wl obj).map (fun o => o.name)).Perm
      ((obj.filter (fun x => wl.contains x.name || x.name == "name")).map
        (fun o => o.name)) :=
    (ordered_param_pairs_perm dp wl obj).map _
  have hsub : ((obj.filter (fun x => wl.contains x.name || x.name == "name")).map
      (fun o => o.name)).Sublist (obj.map (fun o => o.name)) :=
    (List.filter_sublist obj).map _
  have hnd2 : ((ordered_param_pairs dp wl obj).map (fun o => o.name)).Nodup :=
    hperm.nodup_iff.mpr (hnd.sublist hsub)
  exact hnd2.filter _

theorem get_widgets_names_nodup (caps : WidgetCaps) (sl sn tabs : Bool) (dp : Rat)
    (wl : List String) (objName : String) (cfg : WidgetsCfg) (obj : List PObj)
    (hnd : (obj.map (fun o => o.name)).Nodup) :
    ((get_widgets caps sl sn tabs dp wl objName cfg obj).1.map
      (fun pw => pw.1)).Nodup := by
  rw [get_widgets_fst]
  have hord := ordered_params_nodup dp wl obj hnd
  have hnm := name_not_mem_ordered dp wl obj
  cases tabs <;> cases sn <;> simp [hord, hnm]

theorem filter_key_count {γ : Type} (l : List (String × γ)) (p : String)
    (c : String → Bool) (hnd : (l.map (fun e => e.1)).Nodup) :
    (l.filter (fun e => e.1 == p && c e.1)).length
      = if p ∈ l.map (fun e => e.1) ∧ c p = true then 1 else 0 := by
  induction l with
  | nil => simp
  | cons e tl ih =>
    obtain ⟨hx, htl⟩ := List.nodup_cons.mp hnd
    rw [List.filter_cons]
    by_cases hep : e.1 = p
    · subst hep
      have htlf : tl.filter (fun x => x.1 == e.1 && c x.1) = [] := by
        rw [List.filter_eq_nil_iff]
        intro a ha
        have hane : a.1 ≠ e.1 := by
          intro haeq
          exact hx (List.mem_map.mpr ⟨a, ha, haeq⟩)
        simp [hane]
      cases hc : c e.1
      · simp [hc, htlf]
      · simp [hc, htlf]
    · have hepb : (e.1 == p) = false := by simpa using hep
      have hiff : (p ∈ List.map (fun x => x.1) (e :: tl) ∧ c p = true)
          ↔ (p ∈ List.map (fun x => x.1) tl ∧ c p = true) := by
        simp only [List.map_cons, List.mem_cons]
        constructor
        · rintro ⟨h1 | h1, h2⟩
          · exact absurd h1 (fun hh => hep hh.symm)
          · exact ⟨h1, h2⟩
        · rintro ⟨h1, h2⟩
          exact ⟨Or.inr h1, h2⟩
      simp only [hepb, Bool.false_and, Bool.false_eq_true, if_false, ih htl, hiff]

/-- C2: after `Param._update_widgets` on an object, the widget box holds
  exactly the built widgets whose parameter's precedence is `None` or at
  least `display_threshold`, in order; the built names are distinct, so
  every shown parameter has exactly one visible control and none remains
  for a below-threshold parameter. -/
theorem update_widgets_box (caps : WidgetCaps) (st : ParamState) (obj : List PObj)
    (hobj : st.object = some obj) (hnd : (obj.map (fun o => o.name)).Nodup) :
    (update_widgets caps st).box
      = ((update_widgets caps st).widgetsBuilt.filter
          (fun pw => shown_prec obj st.display_threshold pw.1)).map (fun pw => pw.2) ∧
    ((update_widgets caps st).widgetsBuilt.map (fun pw => pw.1)).Nodup ∧
    (∀ p : String,
      ((update_widgets caps st).widgetsBuilt.filter
          (fun pw => pw.1 == p && shown_prec obj st.display_threshold pw.1)).length
        = if p ∈ (update_widgets caps st).widgetsBuilt.map (fun pw => pw.1)
              ∧ shown_prec obj st.display_threshold p = true then 1 else 0) := by
  refine ⟨?_, ?_, ?_⟩
  · simp only [update_widgets, hobj]
  · simp only [update_widgets, hobj]
    exact get_widgets_names_nodup caps st.show_labels st.show_name
      st.expandLayoutIsTabs st.default_precedence st.parameters
      st.objName st.widgetsCfg obj hnd
  · intro p
    simp only [update_widgets, hobj]
    exact filter_key_count _ p _ (get_widgets_names_nodup caps st.show_labels
      st.show_name st.expandLayoutIsTabs st.default_precedence
      st.parameters st.objName st.widgetsCfg obj hnd)

theorem alGet_mem {β : Type} (l : List (String × β)) (k : String) (b : β)
    (h : alGet l k = some b) : ∃ e, e ∈ l ∧ e.1 = k ∧ e.2 = b := by
  unfold alGet at h
  cases hf : l.find? (fun e => e.1 == k) with
  | none => rw [hf] at h; cases h
  | some e =>
    rw [hf] at h
    have hmem := List.mem_of_find?_eq_some hf
    have hpred : (e.1 == k) = true := by simpa using List.find?_some hf
    exact ⟨e, hmem, by simpa using hpred, Option.some.inj h⟩

theorem resolve_cfg_noType (cfg : WidgetsCfg) (pobj : PObj)
    (h : noTypeOverride cfg = true) :
    (resolve_widget_class cfg pobj).2.2 = cfg := by
  cases cfg with
  | none => rfl
  | some es =>
    simp only [resolve_widget_class]
    cases hl : alGet es pobj.name with
    | none => rfl
    | some ov =>
      cases ov with
      | wclass t => rfl
      | odict ty extra =>
        cases ty with
        | none => rfl
        | some t =>
          exfalso
          obtain ⟨e, hmem, hk, hv⟩ := alGet_mem es pobj.name _ hl
          have h2 : ∀ (a : String) (b : POverride), (a, b) ∈ es → entryNoType b = true := by
            simpa [noTypeOverride, List.all_eq_true] using h
          have hall : entryNoType e.2 = true := h2 e.1 e.2 hmem
          rw [hv] at hall
          simp [entryNoType] at hall

theorem widgetFn_cfg_noType (caps : WidgetCaps) (sl : Bool) (cfg : WidgetsCfg)
    (pobj : PObj) (h : noTypeOverride cfg = true) :
    (widgetFn caps sl cfg pobj).2 = cfg := by
  rw [widgetFn_cfg]
  exact resolve_cfg_noType cfg pobj h

theorem build_widgets_cfg_noType (caps : WidgetCaps) (sl : Bool) (obj : List PObj)
    (ps : List String) (cfg : WidgetsCfg) (h : noTypeOverride cfg = true) :
    (build_widgets caps sl obj cfg ps).2 = cfg := by
  induction ps generalizing cfg with
  | nil => rfl
  | cons p ps ih =>
    rw [build_widgets]
    cases hf : obj.find? (fun o => o.name == p) with
    | none => exact ih cfg h
    | some pobj =>
      have hr : (widgetFn caps sl cfg pobj).2 = cfg := widgetFn_cfg_noType caps sl cfg pobj h
      simp only [hr]
      exact ih cfg h

theorem get_widgets_cfg_noType (caps : WidgetCaps) (sl sn tabs : Bool) (dp : Rat)
    (wl : List String) (objName : String) (cfg : WidgetsCfg) (obj : List PObj)
    (h : noTypeOverride cfg = true) :
    (get_widgets caps sl sn tabs dp wl objName cfg obj).2 = cfg := by
  unfold get_widgets
  exact build_widgets_cfg_noType caps sl obj (ordered_params dp wl obj) cfg h

/-- Counterexample to C8: with a `widgets` override dict carrying a
  `type` key, the first `_update_widgets` pops the key (a side effect on
  the caller's dict), so the second rebuild resolves a different widget
  class for `x` and the box differs — rebuilding twice is not
  observably identical. -/
theorem update_widgets_not_idem :
    (update_widgets capsA (update_widgets capsA idemState)).box
      ≠ (update_widgets capsA idemState).box := by decide

/-- C8 amended: rebuilding twice with no intervening state change yields
  an observably identical control set (same built entries — names,
  types, order, values — and same box), provided no `widgets` override
  dict entry carries a `type` key; a `type` entry is consumed by the
  first build, after which the resolver decides the class. -/
theorem update_widgets_idem (caps : WidgetCaps) (st : ParamState)
    (h : noTypeOverride st.widgetsCfg = true) :
    (update_widgets caps (update_widgets caps st)).widgetsBuilt
      = (update_widgets caps st).widgetsBuilt ∧
    (update_widgets caps (update_widgets caps st)).box
      = (update_widgets caps st).box := by
  cases hobj : st.object with
  | none => simp [update_widgets, hobj]
  | some obj =>
    have hcfg : (get_widgets caps st.show_labels st.show_name st.expandLayoutIsTabs
        st.default_precedence st.parameters st.objName st.widgetsCfg obj).2
        = st.widgetsCfg :=
      get_widgets_cfg_noType caps st.show_labels st.show_name st.expandLayoutIsTabs
        st.default_precedence st.parameters st.objName st.widgetsCfg obj h
    simp only [update_widgets, hobj, hcfg]
    constructor <;> trivial

/-- Witness for the amended C8 on a concrete three-parameter state with
  no type override. -/
theorem update_widgets_idem_witness :
    (update_widgets capsA (update_widgets capsA c2State)).widgetsBuilt
      = (update_widgets capsA c2State).widgetsBuilt ∧
    (update_widgets capsA (update_widgets capsA c2State)).box
      = (update_widgets capsA c2State).box :=
  update_widgets_idem capsA c2State rfl

/-- Witness for C2 on a concrete state: `x` (precedence 1) and the name
  label are shown, `z` (precedence -1, below the threshold 0) is not. -/
theorem update_widgets_box_witness :
    ((update_widgets capsA c2State).box
      = ((update_widgets capsA c2State).widgetsBuilt.filter
          (fun pw => shown_prec c2Obj c2State.display_threshold pw.1)).map
            (fun pw => pw.2) ∧
    ((update_widgets capsA c2State).widgetsBuilt.map (fun pw => pw.1)).Nodup ∧
    ((update_widgets capsA c2State).widgetsBuilt.filter
        (fun pw => pw.1 == "z" && shown_prec c2Obj c2State.display_threshold pw.1)).length
      = if "z" ∈ (update_widgets capsA c2State).widgetsBuilt.map (fun pw => pw.1)
            ∧ shown_prec c2Obj c2State.display_threshold "z" = true then 1 else 0) ∧
    (update_widgets capsA c2State).box.length = 2 :=
  ⟨⟨(update_widgets_box capsA c2State c2Obj rfl (by decide)).1,
    (update_widgets_box capsA c2State c2Obj rfl (by decide)).2.1,
    (update_widgets_box capsA c2State c2Obj rfl (by decide)).2.2 "z"⟩,
   by decide⟩

/-- Counterexample to C5: a non-`Reactive` output of the same pane type
  with no links is merged in place, but the pane's `object` parameter is
  assigned unconditionally — here the new output is identical (same
  identity) to the pane's current `object`, yet `object` is still
  written, so the in-place update does not copy only identity-differing
  parameters. -/
theorem update_pane_counterexample :
    (update_pane gptFix lnkFix paneFix objFix).2.2 = false ∧
    (update_pane gptFix lnkFix paneFix objFix).2.1 = ["object"] ∧
    alGet paneFix.paramValues "object" = some (some objFix.id) := by decide

/-- C5 amended: `ParamMethod._update_pane` replaces the rendered pane
  with a freshly constructed one exactly when the new output's pane type
  differs from the current pane's type or the output participates in
  cross-object linking; otherwise the pane is updated in place — when
  the output is `Reactive`, copying exactly the non-`name` parameters
  whose new value differs by identity from the pane's current value, and
  otherwise assigning the output to the pane's `object` parameter
  unconditionally. -/
theorem update_pane_spec (gpt : RObj → Nat) (lnk : Nat → List Nat)
    (pane : PaneSt) (newObj : RObj) :
    ((update_pane gpt lnk pane newObj).2.2 = true
      ↔ ¬(pane.ptype = gpt newObj
            ∧ (if newObj.hashable then lnk newObj.id else []) = [])) ∧
    (pane.ptype = gpt newObj →
      (if newObj.hashable then lnk newObj.id else []) = [] →
      newObj.reactive = true →
      (update_pane gpt lnk pane newObj).2.1
        = (newObj.paramValues.filter
            (fun kv => !(kv.1 == "name")
              && !(alGet pane.paramValues kv.1 == some kv.2))).map (fun kv => kv.1)) ∧
    (pane.ptype = gpt newObj →
      (if newObj.hashable then lnk newObj.id else []) = [] →
      newObj.reactive = false →
      (update_pane gpt lnk pane newObj).2.1 = ["object"] ∧
      (update_pane gpt lnk pane newObj).1
        = { pane with
            paramValues := alSet pane.paramValues "object" (some newObj.id) }) := by
  by_cases hc : pane.ptype = gpt newObj
      ∧ (if newObj.hashable then lnk newObj.id else []) = []
  · refine ⟨?_, ?_, ?_⟩
    · cases hr : newObj.reactive <;> simp [update_pane, hc, hr]
    · intro h1 h2 h3
      simp [update_pane, hc, h3]
    · intro h1 h2 h3
      simp [update_pane, hc, h3]
  · refine ⟨?_, ?_, ?_⟩
    · simp only [update_pane]
      rw [if_neg hc]
      simpa using hc
    · intro h1 h2 h3
      exact absurd ⟨h1, h2⟩ hc
    · intro h1 h2 h3
      exact absurd ⟨h1, h2⟩ hc

/-- Witness for the amended C5: a `Reactive` output of the same type
  with no links is merged in place, copying exactly the parameters whose
  value differs by identity (here only `x`). -/
theorem update_pane_spec_witness :
    (update_pane gptFix lnkFix paneFix2 objReactive).2.1
      = (objReactive.paramValues.filter
          (fun kv => !(kv.1 == "name")
            && !(alGet paneFix2.paramValues kv.1 == some kv.2))).map (fun kv => kv.1) ∧
    (update_pane gptFix lnkFix paneFix2 objReactive).2.1 = ["x"] :=
  ⟨(update_pane_spec gptFix lnkFix paneFix2 objReactive).2.1 rfl rfl rfl, by decide⟩

/-- Counterexample to C9: `expand_layout = object` (the universal base
  class — neither a `Panel` instance nor a `Panel` subclass type) does
  not raise: the widget box, a `Column`, is an instance of `object`, so
  `isinstance(self._widget_box, layout)` at line 146 succeeds and
  construction completes. -/
theorem initExpandLayout_counterexample :
    initOk (initExpandLayout .column (.ty .obj)) = true ∧
    validExpandLayout (.ty .obj) = false := by decide

/-- C9 amended: construction succeeds exactly when `expand_layout` is a
  `Panel` instance, a `Panel` subclass type, or any type of which the
  widget box is an instance (for example `object` or an ancestor of the
  configured `default_layout`); every other value raises — a
  `TypeError` at line 146 when the value is not a type, the explicit
  `ValueError` of lines 151-153 otherwise. -/
theorem initExpandLayout_ok_iff (wb : Cls) (l : LayoutVal) :
    (initOk (initExpandLayout wb l) = true
      ↔ (validExpandLayout l = true ∨ ∃ c, l = .ty c ∧ isSub wb c = true)) := by
  rcases l with c | c
  · constructor
    · intro h
      left
      by_cases hs : isSub c .panel = true
      · simpa [validExpandLayout] using hs
      · simp [initExpandLayout, initOk, hs] at h
    · rintro (hv | ⟨c2, hc2, hs2⟩)
      · have hs : isSub c .panel = true := by simpa [validExpandLayout] using hv
        simp [initExpandLayout, initOk, hs]
      · simp at hc2
  · by_cases h1 : isSub wb c = true
    · constructor
      · intro _
        exact Or.inr ⟨c, rfl, h1⟩
      · intro _
        simp [initExpandLayout, initOk, h1]
    · by_cases h2 : isSub c .panel = true
      · constructor
        · intro _
          exact Or.inl (by simpa [validExpandLayout] using h2)
        · intro _
          simp [initExpandLayout, initOk, h1, h2]
      · constructor
        · intro h
          simp [initExpandLayout, initOk, h1, h2] at h
        · rintro (hv | ⟨c2, hc2, hs2⟩)
          · have : isSub c .panel = true := by simpa [validExpandLayout] using hv
            exact absurd this h2
          · injection hc2 with hc2
            subst hc2
            exact absurd hs2 h1

theorem mappingWalk_eq_find (pobj : PObj) (l : List PTypeName) :
    mappingWalk pobj l
      = ((l.find? fun t => (mapping t).isSome).bind
          fun t => (mapping t).map (applyEntry pobj)) := by
  induction l with
  | nil => rfl
  | cons t ts ih =>
    cases h : mapping t with
    | none => simp [mappingWalk, List.find?_cons, h, ih]
    | some e => simp [mappingWalk, List.find?_cons, h]

/-- C4: `Param.widget_type` walks the descriptor's type's inheritance
  chain from most specific to least specific and returns the entry of the
  first type registered in `_mapping`, calling it on the descriptor when
  it is a function; since the universal base `param.Parameter` is
  registered, the walk never comes back empty for a descriptor whose
  chain contains `param.Parameter`. -/
theorem widget_type_resolves (pobj : PObj)
    (h : PTypeName.Parameter ∈ pobj.classlist) :
    (widget_type pobj).isSome = true ∧
    widget_type pobj
      = ((pobj.classlist.reverse.find? fun t => (mapping t).isSome).bind
          fun t => (mapping t).map (applyEntry pobj)) := by
  have heq := mappingWalk_eq_find pobj pobj.classlist.reverse
  refine ⟨?_, heq⟩
  rw [widget_type, heq]
  have hmem : PTypeName.Parameter ∈ pobj.classlist.reverse := List.mem_reverse.mpr h
  have hfind : (pobj.classlist.reverse.find? fun t => (mapping t).isSome).isSome := by
    rw [List.find?_isSome]
    exact ⟨PTypeName.Parameter, hmem, by simp [mapping]⟩
  obtain ⟨t, ht⟩ := Option.isSome_iff_exists.mp hfind
  have hpt : (mapping t).isSome = true := by simpa using List.find?_some ht
  obtain ⟨e, he⟩ := Option.isSome_iff_exists.mp hpt
  simp [ht, he]

/-- Witness for C4: on a concrete `FileSelector` descriptor the resolver
  succeeds, and the factory registered for `FileSelector` fires first,
  picking `Select` because a path is configured. -/
theorem widget_type_resolves_witness :
    ((widget_type fileSelDescr).isSome = true ∧
      widget_type fileSelDescr
        = ((fileSelDescr.classlist.reverse.find? fun t => (mapping t).isSome).bind
            fun t => (mapping t).map (applyEntry fileSelDescr))) ∧
    widget_type fileSelDescr = some .Select :=
  ⟨widget_type_resolves fileSelDescr (by decide), by rfl⟩

theorem paramWrite_guarded (fuel : Nat) (s : LinkSt) (v : Value)
    (h : s.updating = true) :
    paramWrite fuel s v = { s with objVal := v, objWrites := s.objWrites + 1 } := by
  rw [paramWrite.eq_def]
  simp [h]

theorem ctrlWrite_guarded (fuel : Nat) (s : LinkSt) (v : Value)
    (h : s.updating = true) :
    ctrlWrite fuel s v = { s with widVal := v, widWrites := s.widWrites + 1 } := by
  rw [ctrlWrite.eq_def]
  simp [h]

/-- C1: with the guard initially released, writing `V` to the control
  writes the parameter exactly once with `V` and the resulting
  object-side event does not write back to the control; symmetrically,
  writing `V` to the parameter updates the control exactly once with
  `V`.  Both directions leave the guard released, so at most one
  direction's write is ever in flight. -/
theorem link_no_cycle (fuel : Nat) (s : LinkSt) (v : Value)
    (hf : 1 ≤ fuel) (hs : s.updating = false) :
    ctrlWrite fuel s v
      = { updating := false, objVal := v, widVal := v,
          objWrites := s.objWrites + 1, widWrites := s.widWrites + 1 } ∧
    paramWrite fuel s v
      = { updating := false, objVal := v, widVal := v,
          objWrites := s.objWrites + 1, widWrites := s.widWrites + 1 } := by
  obtain ⟨f, rfl⟩ : ∃ f, fuel = f + 1 := ⟨fuel - 1, (Nat.succ_pred_eq_of_pos hf).symm⟩
  constructor
  · rw [ctrlWrite]
    simp only [hs, Bool.false_eq_true, if_false]
    rw [paramWrite_guarded f _ v rfl]
  · rw [paramWrite]
    simp only [hs, Bool.false_eq_true, if_false]
    rw [ctrlWrite_guarded f _ v rfl]

/-- Witness for C1 at a concrete pair state and fuel. -/
theorem link_no_cycle_witness :
    ctrlWrite 2 { updating := false, objVal := some 1, widVal := some 1,
                  objWrites := 0, widWrites := 0 } (some 5)
      = { updating := false, objVal := some 5, widVal := some 5,
          objWrites := 1, widWrites := 1 } ∧
    paramWrite 2 { updating := false, objVal := some 1, widVal := some 1,
                   objWrites := 0, widWrites := 0 } (some 5)
      = { updating := false, objVal := some 5, widVal := some 5,
          objWrites := 1, widWrites := 1 } :=
  link_no_cycle 2 _ (some 5) (by decide) rfl

/-- Counterexample to C6: a failing `set_param` inside `link_widget` is
  not caught — the exception escapes the handler — and no warning is
  emitted, contrary to the claim that the failure is surfaced as a
  non-fatal warning without aborting the propagation chain. -/
theorem link_widget_failure_not_caught :
    (link_widget_step { updating := false, objVal := some 1, objWrites := 0,
                        warned := false } (some 5) .raisesValueError).2 = true ∧
    (link_widget_step { updating := false, objVal := some 1, objWrites := 0,
                        warned := false } (some 5) .raisesValueError).1.warned = false := by
  decide

/-- C6 amended: if setting the parameter fails, the exception propagates
  out of `link_widget` uncaught and unconverted to a warning, but the
  `finally` clause releases the `_updating` guard on every exit path, so
  later propagations are not suppressed. -/
theorem link_widget_guard_released (s : WSt) (v : Value) (outcome : SetOutcome)
    (hs : s.updating = false) :
    (link_widget_step s v outcome).1.updating = false ∧
    ((link_widget_step s v outcome).2 = true ↔ outcome = .raisesValueError) ∧
    (link_widget_step s v outcome).1.warned = s.warned := by
  cases outcome <;> simp [link_widget_step, hs]

/-- Witness for the amended C6 at a concrete state. -/
theorem link_widget_guard_released_witness :
    (link_widget_step { updating := false, objVal := some 1, objWrites := 0,
                        warned := false } (some 5) .raisesValueError).1.updating = false ∧
    ((link_widget_step { updating := false, objVal := some 1, objWrites := 0,
                         warned := false } (some 5) .raisesValueError).2 = true ↔
      SetOutcome.raisesValueError = .raisesValueError) ∧
    (link_widget_step { updating := false, objVal := some 1, objWrites := 0,
                        warned := false } (some 5) .raisesValueError).1.warned = false :=
  link_widget_guard_released _ (some 5) .raisesValueError rfl

end PanelParam
